import Mathlib

/-!
Shallow embedding of the statement_aggregator ETL pipeline.

Each definition translates one Python function of the repository:

* `categorize_transaction`   — src/etl/categorization.py, `categorize_transaction`
* `process_rbc_statement`    — src/etl/rbc_etl.py, `process_rbc_statement`
* `process_scotia_statement` — src/etl/scotia_etl.py, `process_scotia_statement`
* `process_amex_statement`   — src/etl/amex_etl.py, `process_amex_statement`
* `process_cibc_statement`   — src/etl/cibc_etl.py, `process_cibc_statement`
* `filter_cr`                — src/etl/filter_negs.py, `filter_cr`
* `check_transaction_thresholds`, `load_threshold_config`,
  `analyze_threshold_violations` — src/etl/threshold_checker.py
* `insert_transactions`      — src/etl/database.py, `ExpenseDatabase.insert_transactions`
* `clear_month_year_data`, `replace_month_flow` — src/main.py

Modelling conventions: pandas float amounts become `Option ℚ`, with `none`
standing for the floating NaN produced by `fillna`-free casts, `to_numeric`
with coercion, or a missing cell; a DataFrame with its integer index becomes
a list of (label, row) pairs; external failures (a database exception during
a write) become explicit boolean parameters; a Python dict keyed by strings
becomes an association list with unique keys, looked up by first match.
-/

/-- A calendar date, the canonical post-parse representation of the various
textual date formats of the exports. -/
structure Date where
  y : Nat
  m : Nat
  d : Nat
deriving DecidableEq

/-- The canonical transaction schema produced by every statement adapter:
date, amount, description, account, category.  `amount = none` models the
floating NaN. -/
structure Txn where
  date : Date
  amount : Option ℚ
  description : String
  account : String
  category : String
deriving DecidableEq

/-- Python's substring test `pat in s`. -/
def strContains (s pat : String) : Bool :=
  decide (pat.toList <:+: s.toList)

/-- The loop body of `categorize_transaction` (src/etl/categorization.py):
for each (category, keywords) pair in order, return the category as soon as
one keyword, upper-cased, occurs in the upper-cased description. -/
def categorize_loop (descU : String) : List (String × List String) → String
  | [] => "Uncategorized"
  | (category, keywords) :: rest =>
      if keywords.any (fun k => strContains descU k.toUpper) then category
      else categorize_loop descU rest

/-- `categorize_transaction(description)` from src/etl/categorization.py,
with the module-level `CATEGORY_KEYWORDS` dict made an explicit `rules`
argument (it is loaded from config/categories.json, which preserves
insertion order in a Python dict). -/
def categorize_transaction (rules : List (String × List String)) (description : String) : String :=
  categorize_loop description.toUpper rules

/-- One raw row of an RBC export after `read_csv` and the currency-strip /
float-cast of the Debit and Credit columns: `none` is the NaN of an empty
cell, which `fillna(0)` turns into 0. -/
structure RbcRaw where
  date : Date
  debit : Option ℚ
  credit : Option ℚ
  description : String
deriving DecidableEq

/-- `process_rbc_statement` (src/etl/rbc_etl.py): `amount = Debit - Credit`
after `fillna(0)`, account hardcoded to "RBC", category from the
categorizer, and finally `amount = -1 * amount`. -/
def process_rbc_statement (rules : List (String × List String)) (rows : List RbcRaw) :
    List Txn :=
  rows.map (fun r =>
    let debit := r.debit.getD 0
    let credit := r.credit.getD 0
    let amount := debit - credit
    { date := r.date
      amount := some (-1 * amount)
      description := r.description
      account := "RBC"
      category := categorize_transaction rules r.description })

/-- One raw row of a Scotiabank export: Date, Amount, Description columns;
the Amount cell is already numeric (NaN possible). -/
structure ScotiaRaw where
  date : Date
  amount : Option ℚ
  description : String
deriving DecidableEq

/-- `process_scotia_statement` (src/etl/scotia_etl.py): rename columns,
account hardcoded to "Scotiabank", category from the categorizer, then
`amount = -1 * amount`.  Negating NaN keeps NaN. -/
def process_scotia_statement (rules : List (String × List String)) (rows : List ScotiaRaw) :
    List Txn :=
  rows.map (fun r =>
    { date := r.date
      amount := r.amount.map (fun a => -1 * a)
      description := r.description
      account := "Scotiabank"
      category := categorize_transaction rules r.description })

/-- One raw row of an AMEX export after skipping the 11 preamble lines and
the currency-strip / float-cast of the Amount column. -/
structure AmexRaw where
  date : Date
  amount : Option ℚ
  description : String
deriving DecidableEq

/-- `process_amex_statement` (src/etl/amex_etl.py): account decided by the
substring "Gold" in the file path, category from the categorizer, amount
kept with its native sign (no flip). -/
def process_amex_statement (rules : List (String × List String)) (file_path : String)
    (rows : List AmexRaw) : List Txn :=
  rows.map (fun r =>
    { date := r.date
      amount := r.amount
      description := r.description
      account := if strContains file_path "Gold" then "AMEX Gold" else "AMEX Cobalt"
      category := categorize_transaction rules r.description })

/-- One raw row of a CIBC export (headerless CSV read with custom column
names date, description, amount, CR, accct_no; only the first three are
kept). -/
structure CibcRaw where
  date : Date
  description : String
  amount : Option ℚ
deriving DecidableEq

/-- The filename decision rule of `process_cibc_statement`
(src/etl/cibc_etl.py) assigning the account label. -/
def cibc_account (file_path : String) : String :=
  if strContains file_path "Chq" then "CIBC Chequing"
  else if strContains file_path "67781" then "CIBC LOC 67781"
  else if strContains file_path "Indvl" then "CIBC Individual"
  else "CIBC Costco CC"

/-- `process_cibc_statement` (src/etl/cibc_etl.py): amount taken as read
(no sign flip, no currency strip), category from the categorizer. -/
def process_cibc_statement (rules : List (String × List String)) (file_path : String)
    (rows : List CibcRaw) : List Txn :=
  rows.map (fun r =>
    { date := r.date
      amount := r.amount
      description := r.description
      account := cibc_account file_path
      category := categorize_transaction rules r.description })

/-- The row-drop test of `filter_cr` (src/etl/filter_negs.py):
`data.loc[x, "amount"] <= 0 or math.isnan(data.loc[x, "amount"])`.
A NaN amount fails the `<= 0` comparison but passes `isnan`. -/
def isBad (amount : Option ℚ) : Bool :=
  match amount with
  | some a => decide (a ≤ 0)
  | none => true

/-- `data.drop(x, inplace=True)`: remove the row labelled `x` from the
frame. -/
def dropLabel (df : List (Nat × Txn)) (x : Nat) : List (Nat × Txn) :=
  df.filter (fun p => !(decide (p.1 = x)))

/-- The loop of `filter_cr` (src/etl/filter_negs.py): iterate over the
snapshot of the index taken when the loop starts, look each label up in the
current frame, and drop the row when its amount is non-positive or NaN.
A label no longer present (impossible with unique labels) is skipped. -/
def filter_cr_go (labels : List Nat) (df : List (Nat × Txn)) : List (Nat × Txn) :=
  match labels with
  | [] => df
  | x :: xs =>
      match df.find? (fun p => decide (p.1 = x)) with
      | some p =>
          if isBad p.2.amount then filter_cr_go xs (dropLabel df x)
          else filter_cr_go xs df
      | none => filter_cr_go xs df

/-- `filter_cr(data)` from src/etl/filter_negs.py: the value of the frame
after the drop loop has visited every label of the initial index. -/
def filter_cr (df : List (Nat × Txn)) : List (Nat × Txn) :=
  filter_cr_go (df.map Prod.fst) df

/-- A heap of DataFrame objects addressed by reference, used to state what
`inplace=True` mutation does to the caller's object. -/
def Heap : Type :=
  Nat → List (Nat × Txn)

/-- Overwrite the object behind one reference. -/
def heapUpdate (h : Heap) (ref : Nat) (v : List (Nat × Txn)) : Heap :=
  fun x => if x = ref then v else h x

/-- The `filter_cr` loop acting on the heap: every `data.drop(x,
inplace=True)` rewrites the object behind `ref` in place; no other object
is touched and no copy is made. -/
def filter_cr_heap_go (labels : List Nat) (h : Heap) (ref : Nat) : Heap :=
  match labels with
  | [] => h
  | x :: xs =>
      match (h ref).find? (fun p => decide (p.1 = x)) with
      | some p =>
          if isBad p.2.amount then
            filter_cr_heap_go xs (heapUpdate h ref (dropLabel (h ref) x)) ref
          else filter_cr_heap_go xs h ref
      | none => filter_cr_heap_go xs h ref

/-- `filter_cr(data)` as the caller sees it: the loop mutates the heap and
`return data` hands back the reference it was given. -/
def filter_cr_heap (h : Heap) (ref : Nat) : Heap × Nat :=
  (filter_cr_heap_go ((h ref).map Prod.fst) h ref, ref)

/-- Python dict lookup for a string-keyed dict with unique keys, as an
association list searched front to back. -/
def lookupDict (d : List (String × ℚ)) (k : String) : Option ℚ :=
  (d.find? (fun p => p.1 == k)).map (fun p => p.2)

/-- A threshold violation as built by `check_transaction_thresholds`
(src/etl/threshold_checker.py): the transaction row, the `threshold`
column added by the category map, and the `excess_amount` column. -/
structure Violation where
  txn : Txn
  threshold : ℚ
  excess_amount : ℚ
deriving DecidableEq

/-- The per-row effect of the boolean mask of
`check_transaction_thresholds`: `df['threshold'] = df['category'].map(cfg)`
gives NaN for an unmapped category, the mask keeps rows with
`threshold > 0` and `abs(amount) > threshold` (both comparisons are false
on NaN), and `excess_amount = abs(amount) - threshold` is added to the
kept rows. -/
def violation_of (cfg : List (String × ℚ)) (t : Txn) : Option Violation :=
  match lookupDict cfg t.category, t.amount with
  | some lim, some a =>
      if 0 < lim ∧ lim < |a| then some ⟨t, lim, |a| - lim⟩ else none
  | _, _ => none

/-- `check_transaction_thresholds(transactions_df, threshold_config)` from
src/etl/threshold_checker.py: the rows passing the mask, in the original
row order of the frame. -/
def check_transaction_thresholds (txns : List Txn) (cfg : List (String × ℚ)) :
    List Violation :=
  txns.filterMap (violation_of cfg)

/-- The three outcomes of opening and parsing config/txnThreshold.json. -/
inductive ThresholdFile where
  | missing
  | malformed
  | wellFormed (records : List (String × ℚ))
deriving DecidableEq

/-- Insertion into a Python dict: a repeated key overwrites in place, a new
key is appended. -/
def dictInsert (d : List (String × ℚ)) (k : String) (v : ℚ) : List (String × ℚ) :=
  if d.any (fun p => p.1 == k) then
    d.map (fun p => if p.1 == k then (k, v) else p)
  else d ++ [(k, v)]

/-- `load_threshold_config` (src/etl/threshold_checker.py): a missing file
(FileNotFoundError) or malformed JSON (JSONDecodeError) yields the empty
dict; otherwise the list of {category, limit} records is folded into a
dict. -/
def load_threshold_config (tf : ThresholdFile) : List (String × ℚ) :=
  match tf with
  | .missing => []
  | .malformed => []
  | .wellFormed records => records.foldl (fun d r => dictInsert d r.1 r.2) []

/-- `analyze_threshold_violations` (src/etl/threshold_checker.py): load the
config; with an empty dict return an empty frame without checking,
otherwise return the rows found by `check_transaction_thresholds`. -/
def analyze_threshold_violations (tf : ThresholdFile) (txns : List Txn) : List Violation :=
  let cfg := load_threshold_config tf
  if cfg.isEmpty then [] else check_transaction_thresholds txns cfg

/-- The `dt` cell of a row reaching `insert_transactions`: a parseable
date, a null (None/NaT, which `dropna` removes), or garbage text on which
`pd.to_datetime` raises. -/
inductive DtCell where
  | val (d : Date)
  | null
  | garbage
deriving DecidableEq

/-- One row of the frame passed to `ExpenseDatabase.insert_transactions`
after column renaming: `none` in `amt` is the NaN left by
`pd.to_numeric(..., errors='coerce')`; `none` elsewhere is a null cell. -/
structure InsRow where
  dt : DtCell
  amt : Option ℚ
  desc : Option String
  account : Option String
  category : Option String
deriving DecidableEq

/-- The rows `df_clean.dropna()` keeps: every field present and valid. -/
def rowComplete (r : InsRow) : Bool :=
  (match r.dt with | .val _ => true | _ => false)
    && r.amt.isSome && r.desc.isSome && r.account.isSome && r.category.isSome

/-- `ExpenseDatabase.insert_transactions` (src/etl/database.py).
`hasCols` is the required-columns check on the frame; a garbage date makes
`pd.to_datetime` raise, caught by the enclosing try as a `False` return;
`dropna()` silently removes incomplete rows; an empty cleaned frame
returns `False`; `toSqlOk` models whether the single `to_sql` write
transaction succeeds (on failure it rolls back, leaving the store as it
was, and the except branch returns `False`). -/
def insert_transactions (st : List InsRow) (batch : List InsRow)
    (hasCols : Bool) (toSqlOk : Bool) : List InsRow × Bool :=
  if hasCols = false then (st, false)
  else if batch.any (fun r => decide (r.dt = DtCell.garbage)) then (st, false)
  else
    let df_clean := batch.filter rowComplete
    if df_clean.isEmpty then (st, false)
    else if toSqlOk then (st ++ df_clean, true) else (st, false)

/-- Lexicographic `start <= d` on dates, the SQL comparison `dt >= start`. -/
def dateLE (a b : Date) : Bool :=
  decide (a.y < b.y)
    || (decide (a.y = b.y)
        && (decide (a.m < b.m) || (decide (a.m = b.m) && decide (a.d ≤ b.d))))

/-- Strict lexicographic date order, the SQL comparison `dt < end`. -/
def dateLT (a b : Date) : Bool :=
  decide (a.y < b.y)
    || (decide (a.y = b.y)
        && (decide (a.m < b.m) || (decide (a.m = b.m) && decide (a.d < b.d))))

/-- The month bounds computed by `clear_month_year_data` (src/main.py):
the first day of the month and the first day of the following month. -/
def month_bounds (y m : Nat) : Date × Date :=
  (⟨y, m, 1⟩, if m = 12 then ⟨y + 1, 1, 1⟩ else ⟨y, m + 1, 1⟩)

/-- Does the `dt` cell fall in `[start, stop)`?  A null or garbage cell
compares false, as SQL NULL does. -/
def inMonthRange (start stop : Date) (c : DtCell) : Bool :=
  match c with
  | .val d => dateLE start d && dateLT d stop
  | _ => false

/-- `clear_month_year_data` (src/main.py): `DELETE FROM txn WHERE dt >=
start AND dt < end`, committed on its own connection before the function
returns. -/
def clear_month_year_data (st : List InsRow) (y m : Nat) : List InsRow :=
  let b := month_bounds y m
  st.filter (fun r => !(inMonthRange b.1 b.2 r.dt))

/-- The overwrite path of `main` (src/main.py): `clear_month_year_data`
runs and commits first, then `insert_transactions` runs as a separate
call on a separate connection.  Returns the final store and the insert's
boolean outcome. -/
def replace_month_flow (st : List InsRow) (y m : Nat) (batch : List InsRow)
    (hasCols : Bool) (toSqlOk : Bool) : List InsRow × Bool :=
  insert_transactions (clear_month_year_data st y m) batch hasCols toSqlOk

/-- Concrete rule set used by witnesses: two categories, declared order
Coffee before Dining, both matching "STARBUCKS". -/
def rulesEx : List (String × List String) :=
  [("Coffee", ["STARBUCKS"]), ("Dining", ["STARBUCKS", "RESTAURANT"])]

/-- Concrete transactions for the threshold witnesses. -/
def txnsEx5 : List Txn :=
  [⟨⟨2025, 6, 3⟩, some 110, "RESTO A", "RBC", "Dining"⟩,
   ⟨⟨2025, 6, 9⟩, some 150, "RESTO B", "RBC", "Dining"⟩,
   ⟨⟨2025, 6, 11⟩, some 40, "CAFE", "RBC", "Coffee"⟩]

/-- Concrete threshold config for the threshold witnesses. -/
def cfgEx5 : List (String × ℚ) :=
  [("Dining", 100)]

/-- The violation emitted for the second transaction of `txnsEx5`. -/
def violEx5 : Violation :=
  ⟨⟨⟨2025, 6, 9⟩, some 150, "RESTO B", "RBC", "Dining"⟩, 100, 50⟩

/-- Concrete labelled frame for the filter witnesses: one expense, one
credit, one NaN amount. -/
def dfEx7 : List (Nat × Txn) :=
  [(0, ⟨⟨2025, 6, 1⟩, some 5, "KEEP", "RBC", "Uncategorized"⟩),
   (1, ⟨⟨2025, 6, 2⟩, some (-3), "CREDIT", "RBC", "Uncategorized"⟩),
   (2, ⟨⟨2025, 6, 3⟩, none, "NAN", "RBC", "Uncategorized"⟩)]

/-- A two-object heap for the in-place witness: the frame lives behind
reference 0, an unrelated object behind every other reference. -/
def heapEx : Heap :=
  fun r => if r = 0 then dfEx7 else []

/-- Concrete store rows for the persistence claims: one June 2025 row. -/
def stEx2 : List InsRow :=
  [⟨.val ⟨2025, 6, 15⟩, some 20, some "OLD JUNE ROW", some "RBC", some "Dining"⟩]

/-- Concrete replacement batch for the persistence claims. -/
def batchEx2 : List InsRow :=
  [⟨.val ⟨2025, 6, 20⟩, some 35, some "NEW JUNE ROW", some "RBC", some "Dining"⟩]

/-- A valid row and a row with a NaN amount, for the batch-insert
counterexample. -/
def goodRow3 : InsRow :=
  ⟨.val ⟨2025, 6, 5⟩, some 12, some "GOOD", some "RBC", some "Dining"⟩

/-- The invalid row of the batch-insert counterexample: its amount failed
numeric coercion. -/
def badRow3 : InsRow :=
  ⟨.val ⟨2025, 6, 6⟩, none, some "BAD", some "RBC", some "Dining"⟩

/-- Helper for C4: the categorizer loop returns the first rule whose
keyword set has a case-insensitive substring hit, else the sentinel. -/
theorem categorize_loop_eq_find (descU : String) (rules : List (String × List String)) :
    categorize_loop descU rules =
      match rules.find? (fun p => p.2.any (fun k => strContains descU k.toUpper)) with
      | some p => p.1
      | none => "Uncategorized" := by
  induction rules with
  | nil => rfl
  | cons p rest ih =>
      obtain ⟨category, keywords⟩ := p
      rw [List.find?_cons]
      by_cases h : (keywords.any (fun k => strContains descU k.toUpper)) = true
      · simp [categorize_loop, h]
      · simp only [Bool.not_eq_true] at h
        simp [categorize_loop, h, ih]

/-- C4: `categorize_transaction` is a total function of the rule set and
description; it returns the first category in rule-set order one of whose
keywords is a case-insensitive substring of the description, and the
sentinel "Uncategorized" when no keyword of any category matches; a
description matching two categories gets the first-declared one. -/
theorem C4_categorize_first_match (rules : List (String × List String)) (description : String) :
    categorize_transaction rules description =
      match rules.find?
          (fun p => p.2.any (fun k => strContains description.toUpper k.toUpper)) with
      | some p => p.1
      | none => "Uncategorized" := by
  unfold categorize_transaction
  exact categorize_loop_eq_find description.toUpper rules

/-- C1: evaluation of the RBC adapter at the failing input.  A row whose
Debit column is 100 and whose Credit column is 0 — an expense — comes out
with amount −100 after the adapter's final `-1 *` sign flip, so the
expense-positive convention claimed by the spec is violated. -/
theorem C1_rbc_debit_negated :
    (process_rbc_statement [] [⟨⟨2025, 6, 15⟩, some 100, some 0, "GROCERY STORE"⟩]).map
        Txn.amount = [some (-100)]
      ∧ ¬ (0 : ℚ) < -100 := by
  constructor
  · simp [process_rbc_statement]
  · norm_num

/-- Helper for C9 and C5: with an empty threshold dict no transaction can
produce a violation. -/
theorem check_empty_config (txns : List Txn) :
    check_transaction_thresholds txns [] = [] := by
  induction txns with
  | nil => rfl
  | cons t rest ih =>
      simp [check_transaction_thresholds, List.filterMap_cons, violation_of, lookupDict] at ih ⊢

/-- C9: a missing threshold config file and a malformed one both load as
the empty rule mapping instead of raising, the analysis over them emits no
violations, and threshold checking over an empty mapping is a no-op. -/
theorem C9_threshold_config_graceful (txns : List Txn) :
    load_threshold_config .missing = []
      ∧ load_threshold_config .malformed = []
      ∧ analyze_threshold_violations .missing txns = []
      ∧ analyze_threshold_violations .malformed txns = []
      ∧ check_transaction_thresholds txns [] = [] := by
  refine ⟨rfl, rfl, rfl, rfl, check_empty_config txns⟩

/-- Helper for C5 and C6: when does one row give rise to a violation. -/
theorem violation_of_eq_some (cfg : List (String × ℚ)) (t : Txn) (v : Violation) :
    violation_of cfg t = some v ↔
      ∃ a lim : ℚ, t.amount = some a ∧ lookupDict cfg t.category = some lim ∧
        0 < lim ∧ lim < |a| ∧ v = ⟨t, lim, |a| - lim⟩ := by
  unfold violation_of
  rcases hl : lookupDict cfg t.category with _ | lim <;>
    rcases ha : t.amount with _ | a <;> simp [hl, ha]
  constructor
  · rintro ⟨hcond, rfl⟩
    exact ⟨hcond.1, hcond.2, rfl⟩
  · rintro ⟨h1, h2, rfl⟩
    exact ⟨⟨h1, h2⟩, rfl⟩

/-- C5: a violation is emitted for exactly those transactions whose
category has a configured limit strictly greater than 0 and whose absolute
amount strictly exceeds it, carrying threshold = the limit and
excess_amount = abs(amount) − limit; every emitted excess is strictly
positive. -/
theorem C5_threshold_characterization (txns : List Txn) (cfg : List (String × ℚ)) :
    (∀ v : Violation,
        v ∈ check_transaction_thresholds txns cfg ↔
          ∃ t ∈ txns, ∃ a lim : ℚ, t.amount = some a ∧
            lookupDict cfg t.category = some lim ∧ 0 < lim ∧ lim < |a| ∧
            v = ⟨t, lim, |a| - lim⟩)
      ∧ ∀ v ∈ check_transaction_thresholds txns cfg, 0 < v.excess_amount := by
  have hmem : ∀ v : Violation,
      v ∈ check_transaction_thresholds txns cfg ↔
        ∃ t ∈ txns, ∃ a lim : ℚ, t.amount = some a ∧
          lookupDict cfg t.category = some lim ∧ 0 < lim ∧ lim < |a| ∧
          v = ⟨t, lim, |a| - lim⟩ := by
    intro v
    unfold check_transaction_thresholds
    rw [List.mem_filterMap]
    constructor
    · rintro ⟨t, ht, hv⟩
      exact ⟨t, ht, (violation_of_eq_some cfg t v).mp hv⟩
    · rintro ⟨t, ht, hv⟩
      exact ⟨t, ht, (violation_of_eq_some cfg t v).mpr hv⟩
  refine ⟨hmem, ?_⟩
  intro v hv
  obtain ⟨t, ht, a, lim, ha, hl, h0, hlt, rfl⟩ := (hmem v).mp hv
  simpa using sub_pos.mpr hlt

/-- Helper: the concrete value of the threshold check on the witness data;
the 110 and 150 dollar Dining rows both exceed the 100 dollar limit, in
input order. -/
theorem check_txnsEx5_eval :
    check_transaction_thresholds txnsEx5 cfgEx5 =
      [⟨⟨⟨2025, 6, 3⟩, some 110, "RESTO A", "RBC", "Dining"⟩, 100, 10⟩, violEx5] := by
  simp [check_transaction_thresholds, txnsEx5, cfgEx5, violEx5, violation_of, lookupDict,
    List.filterMap_cons]
  norm_num

/-- Witness for C5 at concrete input. -/
theorem C5_threshold_witness : (0 : ℚ) < violEx5.excess_amount :=
  (C5_threshold_characterization txnsEx5 cfgEx5).2 violEx5
    (by rw [check_txnsEx5_eval]; simp)

/-- C6 counterexample: on a concrete collection whose violations have
excesses 10 then 50, the sequence returned by the checker is in input
order, not ordered by excess_amount descending. -/
theorem C6_order_counterexample :
    ¬ List.Sorted (fun a b : Violation => b.excess_amount ≤ a.excess_amount)
        (check_transaction_thresholds txnsEx5 cfgEx5) := by
  rw [check_txnsEx5_eval]
  intro hs
  have h50 : (50 : ℚ) ≤ 10 := by
    have := List.rel_of_sorted_cons hs violEx5 (by simp)
    simpa [violEx5] using this
  norm_num at h50

/-- Helper for C6: the transaction of an emitted violation is the row it
was built from. -/
theorem violation_of_txn (cfg : List (String × ℚ)) (t : Txn) (v : Violation)
    (h : violation_of cfg t = some v) : v.txn = t := by
  obtain ⟨a, lim, ha, hl, h0, hlt, rfl⟩ := (violation_of_eq_some cfg t v).mp h
  rfl

/-- C6 (amended): the sequence of violations the checker returns to its
caller preserves the original transaction order — its underlying
transactions form a subsequence of the input; the sort by excess_amount
descending happens only inside the printing helper, not in the returned
sequence. -/
theorem C6_order_amended (txns : List Txn) (cfg : List (String × ℚ)) :
    ((check_transaction_thresholds txns cfg).map Violation.txn).Sublist txns := by
  induction txns with
  | nil => simp [check_transaction_thresholds]
  | cons t rest ih =>
      unfold check_transaction_thresholds at ih ⊢
      rw [List.filterMap_cons]
      cases hv : violation_of cfg t with
      | none => exact ih.cons t
      | some v =>
          rw [List.map_cons, violation_of_txn cfg t v hv]
          exact ih.cons₂ t

/-- C3 counterexample: a two-row batch with one row whose amount failed
numeric coercion is not rejected whole — the invalid row is silently
dropped and the valid row alone is persisted, with a success outcome. -/
theorem C3_insert_not_all_or_nothing :
    insert_transactions [] [goodRow3, badRow3] true true ≠ ([], false)
      ∧ insert_transactions [] [goodRow3, badRow3] true true = ([goodRow3], true) := by
  constructor <;> decide

/-- C3 (amended): `insert_transactions` silently drops the rows `dropna`
removes (missing field, NaN amount) and inserts exactly the remaining
complete rows with a success outcome; the whole batch is refused only when
a required column is missing from the frame, a date string is unparseable,
every row is incomplete, or the database write itself fails. -/
theorem C3_insert_amended (st batch : List InsRow)
    (hg : batch.any (fun r => decide (r.dt = DtCell.garbage)) = false)
    (hv : (batch.filter rowComplete).isEmpty = false) :
    insert_transactions st batch true true = (st ++ batch.filter rowComplete, true) := by
  unfold insert_transactions
  simp [hg, hv]

/-- Witness for C3 (amended) at concrete input. -/
theorem C3_insert_amended_witness :
    insert_transactions [] [goodRow3, badRow3] true true =
      ([] ++ [goodRow3, badRow3].filter rowComplete, true) :=
  C3_insert_amended [] [goodRow3, badRow3] (by decide) (by decide)

/-- C2 counterexample: with one June 2025 row present, running the
replace-month flow whose insert step fails leaves the store empty — the
already-committed delete is not rolled back, so the prior Present state is
not restored and the month is left deleted with no new rows. -/
theorem C2_replace_not_atomic :
    (replace_month_flow stEx2 2025 6 batchEx2 true false).1 ≠ stEx2
      ∧ (replace_month_flow stEx2 2025 6 batchEx2 true false).1 = [] := by
  constructor <;> decide

set_option linter.unnecessarySeqFocus false in
/-- C2 (amended): the replace-month flow is a delete committed on its own
connection followed by an independent insert; on any insert failure the
store is left in the cleared state (the month's old rows deleted, no new
rows), and on success it holds the cleared state plus the batch's complete
rows. -/
theorem C2_replace_amended (st : List InsRow) (y m : Nat) (batch : List InsRow)
    (hasCols toSqlOk : Bool) :
    ((replace_month_flow st y m batch hasCols toSqlOk).2 = false →
        (replace_month_flow st y m batch hasCols toSqlOk).1 = clear_month_year_data st y m)
      ∧ ((replace_month_flow st y m batch hasCols toSqlOk).2 = true →
        (replace_month_flow st y m batch hasCols toSqlOk).1 =
          clear_month_year_data st y m ++ batch.filter rowComplete) := by
  unfold replace_month_flow insert_transactions
  cases hasCols <;> cases toSqlOk <;> simp <;> split_ifs <;> simp_all

/-- Witness for C2 (amended) at concrete input: the failing-insert run
ends in the cleared state. -/
theorem C2_replace_amended_witness :
    (replace_month_flow stEx2 2025 6 batchEx2 true false).1 =
      clear_month_year_data stEx2 2025 6 :=
  (C2_replace_amended stEx2 2025 6 batchEx2 true false).1 (by decide)

/-- Helper for C7: dropping a label keeps the label column duplicate
free. -/
theorem nodup_dropLabel {df : List (Nat × Txn)} (h : (df.map Prod.fst).Nodup) (x : Nat) :
    ((dropLabel df x).map Prod.fst).Nodup :=
  h.sublist ((List.filter_sublist df).map Prod.fst)

/-- Helper for C7: the drop loop over any snapshot of labels removes from
a frame with duplicate-free labels exactly the rows whose label is in the
snapshot and whose amount is non-positive or NaN. -/
theorem filter_cr_go_eq (xs : List Nat) (df : List (Nat × Txn))
    (h : (df.map Prod.fst).Nodup) :
    filter_cr_go xs df =
      df.filter (fun p => !(decide (p.1 ∈ xs) && isBad p.2.amount)) := by
  induction xs generalizing df with
  | nil =>
      simp [filter_cr_go]
  | cons x xs ih =>
      cases hf : df.find? (fun p => decide (p.1 = x)) with
      | none =>
          have hnx : ∀ p ∈ df, p.1 ≠ x := by
            intro p hp
            have := List.find?_eq_none.mp hf p hp
            simpa using this
          simp only [filter_cr_go, hf]
          rw [ih df h]
          apply List.filter_congr
          intro p hp
          have hmx : (p.1 ∈ x :: xs) ↔ (p.1 ∈ xs) := by
            simp [List.mem_cons, hnx p hp]
          simp [hmx]
      | some p =>
          have hpx : p.1 = x := by simpa using List.find?_some hf
          have hpmem : p ∈ df := List.mem_of_find?_eq_some hf
          simp only [filter_cr_go, hf]
          by_cases hb : isBad p.2.amount = true
          · rw [if_pos hb, ih (dropLabel df x) (nodup_dropLabel h x), dropLabel,
              List.filter_filter]
            apply List.filter_congr
            intro q hq
            by_cases hqx : q.1 = x
            · have hqp : q = p :=
                List.inj_on_of_nodup_map h hq hpmem (hqx.trans hpx.symm)
              subst hqp
              simp [hqx, hb]
            · simp [hqx, List.mem_cons]
          · rw [if_neg hb, ih df h]
            apply List.filter_congr
            intro q hq
            by_cases hqx : q.1 = x
            · have hqp : q = p :=
                List.inj_on_of_nodup_map h hq hpmem (hqx.trans hpx.symm)
              subst hqp
              simp only [Bool.not_eq_true] at hb
              simp [hqx, hb]
            · simp [hqx, List.mem_cons]

/-- Helper for C7 and C10: on a frame with duplicate-free labels the drop
loop is exactly an order-preserving filter on the amount test. -/
theorem filter_cr_eq_filter (df : List (Nat × Txn)) (h : (df.map Prod.fst).Nodup) :
    filter_cr df = df.filter (fun p => !(isBad p.2.amount)) := by
  unfold filter_cr
  rw [filter_cr_go_eq _ _ h]
  apply List.filter_congr
  intro p hp
  have hmem : p.1 ∈ df.map Prod.fst := List.mem_map_of_mem Prod.fst hp
  simp [hmem]

/-- C7: on a frame with duplicate-free labels (as produced by the
pipeline's reset_index), `filter_cr` removes exactly the rows whose
amount is non-positive or NaN, keeps the rest in their original order,
and is idempotent. -/
theorem C7_filter_cr_exact_idempotent (df : List (Nat × Txn))
    (h : (df.map Prod.fst).Nodup) :
    filter_cr df = df.filter (fun p => !(isBad p.2.amount))
      ∧ filter_cr (filter_cr df) = filter_cr df := by
  have h1 := filter_cr_eq_filter df h
  have hnd : ((filter_cr df).map Prod.fst).Nodup := by
    rw [h1]
    exact h.sublist ((List.filter_sublist df).map Prod.fst)
  have h2 := filter_cr_eq_filter (filter_cr df) hnd
  refine ⟨h1, ?_⟩
  rw [h2, h1, List.filter_filter]
  apply List.filter_congr
  intro p hp
  cases hb : isBad p.2.amount <;> simp [hb]

/-- Witness for C7 at a concrete three-row frame with a positive, a
negative and a NaN amount. -/
theorem C7_filter_cr_witness :
    ((dfEx7.map Prod.fst).Nodup)
      ∧ (filter_cr dfEx7 = dfEx7.filter (fun p => !(isBad p.2.amount))
        ∧ filter_cr (filter_cr dfEx7) = filter_cr dfEx7) :=
  ⟨by decide, C7_filter_cr_exact_idempotent dfEx7 (by decide)⟩

/-- Helper for C10: the heap version of the drop loop rewrites exactly the
cell behind the caller's reference with the result of the list-level
loop. -/
theorem filter_cr_heap_go_eq (xs : List Nat) (h : Heap) (ref : Nat) :
    filter_cr_heap_go xs h ref = heapUpdate h ref (filter_cr_go xs (h ref)) := by
  induction xs generalizing h with
  | nil =>
      funext r
      by_cases hr : r = ref <;> simp [filter_cr_heap_go, filter_cr_go, heapUpdate, hr]
  | cons x xs ih =>
      have hread : (heapUpdate h ref (dropLabel (h ref) x)) ref = dropLabel (h ref) x := by
        simp [heapUpdate]
      cases hf : (h ref).find? (fun p => decide (p.1 = x)) with
      | none =>
          simp only [filter_cr_heap_go, filter_cr_go, hf]
          exact ih h
      | some p =>
          simp only [filter_cr_heap_go, filter_cr_go, hf]
          by_cases hb : isBad p.2.amount = true
          · rw [if_pos hb, if_pos hb, ih (heapUpdate h ref (dropLabel (h ref) x)), hread]
            funext r
            by_cases hr : r = ref <;> simp [heapUpdate, hr]
          · rw [if_neg hb, if_neg hb]
            exact ih h

/-- C10: `filter_cr` hands back the very reference it was given — not a
fresh copy — and after the call the object behind that reference (the
caller's original collection) holds exactly the post-loop frame, with the
credit/NaN rows gone; every other object on the heap is untouched. -/
theorem C10_filter_cr_inplace (h : Heap) (ref : Nat) :
    (filter_cr_heap h ref).2 = ref
      ∧ (filter_cr_heap h ref).1 ref = filter_cr (h ref)
      ∧ ∀ r : Nat, r ≠ ref → (filter_cr_heap h ref).1 r = h r := by
  unfold filter_cr_heap filter_cr
  rw [filter_cr_heap_go_eq]
  refine ⟨rfl, by simp [heapUpdate], ?_⟩
  intro r hr
  simp [heapUpdate, hr]

/-- Witness for C10 on a concrete two-object heap. -/
theorem C10_filter_cr_inplace_witness :
    (filter_cr_heap heapEx 0).2 = 0 ∧ (filter_cr_heap heapEx 0).1 1 = heapEx 1 :=
  ⟨(C10_filter_cr_inplace heapEx 0).1, (C10_filter_cr_inplace heapEx 0).2.2 1 (by decide)⟩
